import Mathlib

/-!
Shallow embedding of `cenv` (src/main.rs): a process supervisor that wires
stdin/stdout/stderr of one child process, composes its environment, and in
atomic mode stages output files as temporaries that a scope guard drains
(best-effort persist) on every exit path of `run`.

Machine strings (`OsStr`) are modelled as `List Nat` byte lists where byte
content matters (environment arguments), and as `String` where only equality
on the value matters (paths, flag values).  Panics (`expect`, `unwrap`,
`unreachable`) are modelled as `Except.error` carrying the panic message;
fallible OS calls are driven by boolean oracles collected in `World`.
-/

namespace Cenv

/-- Disposition of stdin, modelling `enum StdIn` of main.rs. -/
inductive StdIn where
  | null
  | redirect (path : String)
  | inherit
deriving DecidableEq

/-- Disposition of stdout/stderr, modelling `enum StdStream` of main.rs.
`other` is the `Other` variant (the `--out-err` / `--err-out` "shared" case). -/
inductive StdStream where
  | null
  | redirect (path : String)
  | inherit
  | other
deriving DecidableEq

/-- `fn stream_file_arg`: an absent value or the literal `-` resolves to
`Inherit`; any other value is a `Redirect` path. -/
def stream_file_arg : Option String → StdStream
  | some s => if s = "-" then StdStream.inherit else StdStream.redirect s
  | none => StdStream.inherit

/-- `fn stdin_file_arg`: an absent value or the literal `-` resolves to
`Inherit`; any other value is a `Redirect` path. -/
def stdin_file_arg : Option String → StdIn
  | some s => if s = "-" then StdIn.inherit else StdIn.redirect s
  | none => StdIn.inherit

/-- The relevant fields of the parsed `clap::ArgMatches`, after clap has
enforced each stream's mutually exclusive flag group. -/
structure ArgMatches where
  in_null : Bool
  in_file : Option String
  out_null : Bool
  out_err : Bool
  out_file : Option String
  err_null : Bool
  err_out : Bool
  err_file : Option String
  command : List String
  workdir : Option String
  unset : List (List Nat)
  env : List (List Nat)
  noenv : Bool
  atomic : Bool
  tmpdir : Option String
  exitfile : Option String

/-- The resolved configuration, modelling `struct Argv` of main.rs. -/
structure Argv where
  stdin : StdIn
  stdout : StdStream
  stderr : StdStream
  command : List String
  workdir : Option String
  env_unset : List (List Nat)
  env_set : List (List Nat)
  env_clear : Bool
  tmpdir : Option String
  exitfile : Option String
  is_atomic : Bool

/-- `fn extract_args`: per-stream null flag wins, then the share flag
(stdout/stderr only), then the path flag interpreted by the
path-or-inherit helpers. -/
def extract_args (m : ArgMatches) : Argv :=
  { stdin := if m.in_null then StdIn.null else stdin_file_arg m.in_file,
    stdout :=
      if m.out_null then StdStream.null
      else if m.out_err then StdStream.other
      else stream_file_arg m.out_file,
    stderr :=
      if m.err_null then StdStream.null
      else if m.err_out then StdStream.other
      else stream_file_arg m.err_file,
    command := m.command,
    workdir := m.workdir,
    env_unset := m.unset,
    env_set := m.env,
    env_clear := m.noenv,
    tmpdir := m.tmpdir,
    exitfile := m.exitfile,
    is_atomic := m.atomic }

/-- A writable file handle produced by the `create_file` closure:
either `fs::File::create(path)` (direct mode) or a `tmp.reopen()` handle
onto the named temporary file numbered `id` (atomic mode). -/
inductive FileHandle where
  | direct (path : String)
  | temp (id : Nat)
deriving DecidableEq

/-- A `std::process::Stdio` value handed to the child. -/
inductive Handle where
  | null
  | inherit
  | openRead (path : String)
  | fromFile (f : FileHandle)
  | dupFile (f : FileHandle)
  | dupParentStdout
  | dupParentStderr
deriving DecidableEq

deriving instance DecidableEq for Except

/-- Association-list model of an environment block (keys and values are
byte strings). -/
abbrev EnvMap := List (List Nat × List Nat)

/-- Oracles for the OS calls the program makes, plus the parent state the
child would observe. -/
structure World where
  sysTempDir : String
  parentEnv : EnvMap
  openOk : String → Bool
  createOk : String → Bool
  tempOk : Nat → Bool
  persistOk : Nat → Bool
  createDirOk : String → Bool
  dupStdoutOk : Bool
  dupStderrOk : Bool
  tryCloneOk : Bool
  writeOk : Bool
  spawnOk : Bool
  childExit : Option Nat

/-- The stdin arm of `create_stdio`: `Stdio::null()`, `Stdio::inherit()`,
or `fs::File::open(path)` (a plain read-only open), with the `expect`
panic on open failure. -/
def resolve_stdin (w : World) : StdIn → Except String Handle
  | StdIn.null => Except.ok Handle.null
  | StdIn.inherit => Except.ok Handle.inherit
  | StdIn.redirect path =>
      if w.openOk path then Except.ok (Handle.openRead path)
      else Except.error "Failed to open STDIN file!"

/-- One stream of the catch-all arm of `create_stdio`'s (stdout, stderr)
match: Null/Inherit/Redirect resolved independently, `Other` hits
`unreachable!()`. -/
def resolve_plain {σ : Type} (create_file : String → σ → Option (FileHandle × σ))
    (msg : String) : StdStream → σ → Except String Handle × σ
  | StdStream.null, s => (Except.ok Handle.null, s)
  | StdStream.inherit, s => (Except.ok Handle.inherit, s)
  | StdStream.redirect path, s =>
      match create_file path s with
      | some (f, s1) => (Except.ok (Handle.fromFile f), s1)
      | none => (Except.error msg, s)
  | StdStream.other, s => (Except.error "internal error: entered unreachable code", s)

/-- The (stdout, stderr) match of `create_stdio`: the `(Other, Other)`
cross-swap arm, the two `(Other, Redirect)` / `(Redirect, Other)` shared
handle arms (one `create_file` call plus `try_clone`), and the catch-all
arm resolving the two streams independently. -/
def create_out_err {σ : Type} (w : World)
    (create_file : String → σ → Option (FileHandle × σ)) :
    StdStream → StdStream → σ → Except String (Handle × Handle) × σ
  | StdStream.other, StdStream.other, s =>
      if w.dupStdoutOk then
        if w.dupStderrOk then
          (Except.ok (Handle.dupParentStderr, Handle.dupParentStdout), s)
        else (Except.error "Failed to DUP STDOUT!", s)
      else (Except.error "Failed to DUP STDERR!", s)
  | StdStream.other, StdStream.redirect path, s =>
      match create_file path s with
      | some (f, s1) =>
          if w.tryCloneOk then
            (Except.ok (Handle.dupFile f, Handle.fromFile f), s1)
          else (Except.error "Failed to DUP STDOUT/ERR file!", s1)
      | none => (Except.error "Failed to create STDOUT/ERR file!", s)
  | StdStream.redirect path, StdStream.other, s =>
      match create_file path s with
      | some (f, s1) =>
          if w.tryCloneOk then
            (Except.ok (Handle.dupFile f, Handle.fromFile f), s1)
          else (Except.error "Failed to DUP STDOUT/ERR file!", s1)
      | none => (Except.error "Failed to create STDOUT/ERR file!", s)
  | out, err, s =>
      match resolve_plain create_file "Failed to create STDOUT file!" out s with
      | (Except.error e, s1) => (Except.error e, s1)
      | (Except.ok ho, s1) =>
        match resolve_plain create_file "Failed to create STDERR file!" err s1 with
        | (Except.error e, s2) => (Except.error e, s2)
        | (Except.ok he, s2) => (Except.ok (ho, he), s2)

/-- `fn create_stdio`: stdin resolved first, then the (stdout, stderr)
pair, threading the provisioning state `σ` through the `create_file`
closure.  Panics are `Except.error`; the state at the moment of a panic is
returned alongside it (the caller's pending list survives the unwind). -/
def create_stdio {σ : Type} (w : World) (stdin : StdIn)
    (stdout stderr : StdStream)
    (create_file : String → σ → Option (FileHandle × σ)) (s : σ) :
    Except String (Handle × Handle × Handle) × σ :=
  match resolve_stdin w stdin with
  | Except.error e => (Except.error e, s)
  | Except.ok hin =>
      match create_out_err w create_file stdout stderr s with
      | (Except.error e, s1) => (Except.error e, s1)
      | (Except.ok (ho, he), s1) => (Except.ok (hin, ho, he), s1)

/-- A UTF-8 continuation byte. -/
def utf8cont (b : Nat) : Bool := decide (0x80 ≤ b ∧ b ≤ 0xBF)

/-- UTF-8 validity of a byte sequence, as checked by Rust's
`OsStr::to_str` (rejecting overlong forms, surrogates and values above
U+10FFFF). -/
def validUtf8 : List Nat → Bool
  | [] => true
  | b :: r =>
    if b < 0x80 then validUtf8 r
    else if b < 0xC2 then false
    else if b < 0xE0 then
      match r with
      | b1 :: r1 => utf8cont b1 && validUtf8 r1
      | [] => false
    else if b < 0xF0 then
      match r with
      | b1 :: b2 :: r1 =>
          (if b = 0xE0 then decide (0xA0 ≤ b1 ∧ b1 ≤ 0xBF)
           else if b = 0xED then decide (0x80 ≤ b1 ∧ b1 ≤ 0x9F)
           else utf8cont b1) && utf8cont b2 && validUtf8 r1
      | _ => false
    else if b < 0xF5 then
      match r with
      | b1 :: b2 :: b3 :: r1 =>
          (if b = 0xF0 then decide (0x90 ≤ b1 ∧ b1 ≤ 0xBF)
           else if b = 0xF4 then decide (0x80 ≤ b1 ∧ b1 ≤ 0x8F)
           else utf8cont b1) && utf8cont b2 && utf8cont b3 && validUtf8 r1
      | _ => false
    else false

/-- Split a byte string at its first `=` (byte 61): the loop of
`fn env_to_kv`.  No `=` yields the whole string as key and an empty
value. -/
def splitFirstEq : List Nat → List Nat × List Nat
  | [] => ([], [])
  | b :: r =>
      if b = 61 then ([], r)
      else
        let p := splitFirstEq r
        (b :: p.1, p.2)

/-- `fn env_to_kv`: `arg.to_str().unwrap()` panics (`none`) on invalid
UTF-8, otherwise the bytes are split at the first `=`. -/
def env_to_kv (arg : List Nat) : Option (List Nat × List Nat) :=
  if validUtf8 arg then some (splitFirstEq arg) else none

/-- `Command::env_remove`. -/
def envRemove (e : EnvMap) (k : List Nat) : EnvMap :=
  e.filter (fun p => decide (p.1 ≠ k))

/-- `Command::env`: insert or overwrite. -/
def envInsert (e : EnvMap) (k v : List Nat) : EnvMap :=
  envRemove e k ++ [(k, v)]

/-- Lookup in an environment block. -/
def envLookup (e : EnvMap) (k : List Nat) : Option (List Nat) :=
  (e.find? (fun p => decide (p.1 = k))).map (fun p => p.2)

/-- The environment mutations of `run` (lines 302-316): `env_clear` if
`--no-environment`, then `env_remove` for each `--unset`, then `env` for
each `--env` pair produced by `env_to_kv`; `none` when some `--env`
argument makes `env_to_kv` panic. -/
def envStep (e : EnvMap) (arg : List Nat) : Option EnvMap :=
  (env_to_kv arg).map (fun kv => envInsert e kv.1 kv.2)

def compose_env (init : EnvMap) (clear : Bool) (unsets : List (List Nat))
    (sets : List (List Nat)) : Option EnvMap :=
  let e0 := if clear then [] else init
  let e1 := unsets.foldl envRemove e0
  sets.foldlM envStep e1

/-- Observable events of one run, in program order. -/
inductive Event where
  | createDir (path : String)
  | stageTemp (id : Nat) (dest : String)
  | createDirect (path : String)
  | spawn
  | renameOk (id : Nat) (dest : String)
  | renameFail (id : Nat) (dest : String)
  | exitTempStage (id : Nat)
  | exitRenameOk (id : Nat) (dest : String)
deriving DecidableEq

/-- The mutable state of `run`: the event trace, the scope-guarded
`to_move` vector of (temp file, destination) pairs, and a counter naming
temporary files. -/
structure St where
  trace : List Event
  to_move : List (Nat × String)
  nextTemp : Nat
deriving DecidableEq

/-- The atomic-mode `create_file` closure (lines 281-287): create a named
temporary file in the staging directory, reopen it for the child, and push
the (temp, destination) pair onto `to_move`. -/
def atomic_create_file (w : World) (_tempdir : String) (path : String)
    (s : St) : Option (FileHandle × St) :=
  if w.tempOk s.nextTemp then
    some (FileHandle.temp s.nextTemp,
      { trace := s.trace ++ [Event.stageTemp s.nextTemp path],
        to_move := s.to_move ++ [(s.nextTemp, path)],
        nextTemp := s.nextTemp + 1 })
  else none

/-- The direct-mode `create_file` closure (line 290): `fs::File::create`
at the final path. -/
def direct_create_file (w : World) (path : String) (s : St) :
    Option (FileHandle × St) :=
  if w.createOk path then
    some (FileHandle.direct path,
      { s with trace := s.trace ++ [Event.createDirect path] })
  else none

/-- The `--exit-file` block of `run` (lines 323-338): in atomic mode a
fresh temporary is written and persisted inline, each step panicking on
failure; in direct mode the file is created and written in place. -/
def exitfile_phase (a : Argv) (w : World) (s : St) : Except String Unit × St :=
  match a.exitfile with
  | none => (Except.ok (), s)
  | some path =>
    if a.is_atomic then
      if w.tempOk s.nextTemp then
        let s1 : St := { s with nextTemp := s.nextTemp + 1,
                                trace := s.trace ++ [Event.exitTempStage s.nextTemp] }
        if w.writeOk then
          if w.persistOk s.nextTemp then
            (Except.ok (), { s1 with trace := s1.trace ++ [Event.exitRenameOk s.nextTemp path] })
          else (Except.error "Failed to move TMP exitcode file!", s1)
        else (Except.error "Failed to write to TMP exitcode file!", s1)
      else (Except.error "Failed to create TMP exitcode file!", s)
    else
      if w.createOk path then
        let s1 : St := { s with trace := s.trace ++ [Event.createDirect path] }
        if w.writeOk then (Except.ok (), s1)
        else (Except.error "Failed to write to exitcode file!", s1)
      else (Except.error "Failed to create exitcode file", s)

/-- The initial state of a run: empty trace, empty `to_move`, counter 0. -/
def st0 : St := { trace := [], to_move := [], nextTemp := 0 }

/-- The choice of `create_file` closure made at lines 279-291 of `run`:
staged temporaries in atomic mode, direct creation otherwise. -/
def choose_cf (w : World) (atomic : Bool) (tempdir : String) :
    String → St → Option (FileHandle × St) :=
  if atomic then atomic_create_file w tempdir else direct_create_file w

/-- Lines 269-274 of `run`: `--tmpdir` is created with `create_dir_all`
(panicking on failure), otherwise the system temp directory is used. -/
def phase_tmpdir (a : Argv) (w : World) : Except String String × St :=
  match a.tmpdir with
  | some p =>
      if w.createDirOk p then
        (Except.ok p, { st0 with trace := st0.trace ++ [Event.createDir p] })
      else (Except.error "Failed to create TMPDIR!", st0)
  | none => (Except.ok w.sysTempDir, st0)

/-- Lines 297-300 of `run`: the `--workdir` directory is created with
`create_dir_all` (panicking on failure). -/
def phase_workdir (a : Argv) (w : World) (s : St) : Except String Unit × St :=
  match a.workdir with
  | some wd =>
      if w.createDirOk wd then
        (Except.ok (), { s with trace := s.trace ++ [Event.createDir wd] })
      else (Except.error "Failed to create working dir!", s)
  | none => (Except.ok (), s)

/-- The body of `fn run` up to but excluding the scope guard drain:
command check, staging directory, stdio wiring, working directory,
environment composition, spawn, wait, exit-code artifact.  The first
component is the child's exit status (`Option Nat`, `none` for signal
termination) or the panic message; the second is the state the scope
guard will see. -/
def runCore (a : Argv) (w : World) : Except String (Option Nat) × St :=
  match a.command with
  | [] => (Except.error "Command is empty!", st0)
  | _name :: _rest =>
    match phase_tmpdir a w with
    | (Except.error e, s) => (Except.error e, s)
    | (Except.ok tempdir, s1) =>
      match create_stdio w a.stdin a.stdout a.stderr (choose_cf w a.is_atomic tempdir) s1 with
      | (Except.error e, s) => (Except.error e, s)
      | (Except.ok _handles, s2) =>
        match phase_workdir a w s2 with
        | (Except.error e, s) => (Except.error e, s)
        | (Except.ok _, s3) =>
          match compose_env w.parentEnv a.env_clear a.env_unset a.env_set with
          | none => (Except.error "called Option::unwrap on a None value", s3)
          | some _env =>
            if w.spawnOk then
              match exitfile_phase a w { s3 with trace := s3.trace ++ [Event.spawn] } with
              | (Except.error e, s) => (Except.error e, s)
              | (Except.ok _, s5) => (Except.ok w.childExit, s5)
            else (Except.error "Failed to run command!", s3)

/-- The outcome of `drop(file.persist(dest))` for one pending pair:
rename into place on success; on failure the `PersistError` is dropped,
which removes the temporary file. -/
def persistEvt (w : World) (x : Nat × String) : Event :=
  if w.persistOk x.1 then Event.renameOk x.1 x.2 else Event.renameFail x.1 x.2

/-- The scope guard drain (lines 261-265): for each pending
(temp, destination) pair, in order, attempt `file.persist(dest)` and
discard the result; a failed persist removes the temporary file. -/
def drain (w : World) (s : St) : St :=
  { trace := s.trace ++ s.to_move.map (persistEvt w),
    to_move := [],
    nextTemp := s.nextTemp }

/-- `fn run` in full: the core followed by the scope guard drain, which
runs on every exit path (normal return and unwinding panic alike). -/
def runModel (a : Argv) (w : World) : Except String (Option Nat) × St :=
  let r := runCore a w
  (r.1, drain w r.2)

/-- `fn main`: `std::process::exit(run().code().unwrap_or(0))`; a panic
unwinding out of `run` terminates the process with status 101. -/
def mainExit (a : Argv) (w : World) : Nat :=
  match (runModel a w).1 with
  | Except.ok c => c.getD 0
  | Except.error _ => 101

/-- The (temp id, destination) pairs recorded by `stageTemp` events of a
trace, in order. -/
def stagedOf (tr : List Event) : List (Nat × String) :=
  tr.filterMap (fun e =>
    match e with
    | Event.stageTemp i d => some (i, d)
    | _ => none)

/-- How any pre-spawn phase of `run` evolves the state: the trace grows by
events that are neither `spawn` nor rename outcomes, `to_move` grows by
exactly the newly staged pairs, staged ids are fresh and increasing. -/
def StRel (s t : St) : Prop :=
  s.nextTemp ≤ t.nextTemp ∧
  ∃ L, t.trace = s.trace ++ L ∧
    Event.spawn ∉ L ∧
    (∀ i d, Event.renameOk i d ∉ L ∧ Event.renameFail i d ∉ L) ∧
    t.to_move = s.to_move ++ stagedOf L ∧
    (∀ x ∈ stagedOf L, s.nextTemp ≤ x.1 ∧ x.1 < t.nextTemp) ∧
    List.Pairwise (fun x y : Nat × String => x.1 < y.1) (stagedOf L)

/-- A provisioning closure whose every successful call is a `StRel` step. -/
def GoodStep (cf : String → St → Option (FileHandle × St)) : Prop :=
  ∀ p s f s1, cf p s = some (f, s1) → StRel s s1

/-- Panic messages that can only arise after the child has been spawned
(the `--exit-file` block). -/
def postSpawnMsgs : List String :=
  ["Failed to create TMP exitcode file!", "Failed to write to TMP exitcode file!",
   "Failed to move TMP exitcode file!", "Failed to create exitcode file",
   "Failed to write to exitcode file!"]

/-- Panic messages of the provisioning phase (staging directory, stdio
sinks, working directory), all of which precede the spawn. -/
def provisioningMsgs : List String :=
  ["Failed to create TMPDIR!", "Failed to open STDIN file!",
   "Failed to DUP STDERR!", "Failed to DUP STDOUT!",
   "Failed to create STDOUT/ERR file!", "Failed to DUP STDOUT/ERR file!",
   "Failed to create STDOUT file!", "Failed to create STDERR file!",
   "internal error: entered unreachable code", "Failed to create working dir!"]

/-- The value carried by the last `--env` argument whose key is `q`
(specification vocabulary for the characterisation of `compose_env`). -/
def lastSet (sets : List (List Nat)) (q : List Nat) : Option (List Nat) :=
  match sets.reverse.find? (fun arg =>
      match env_to_kv arg with
      | some kv => decide (kv.1 = q)
      | none => false) with
  | some arg => (env_to_kv arg).map (fun kv => kv.2)
  | none => none

/-- A world in which every OS call succeeds and the child exits with 7. -/
def okWorld : World :=
  { sysTempDir := "/tmp", parentEnv := [],
    openOk := fun _ => true, createOk := fun _ => true,
    tempOk := fun _ => true, persistOk := fun _ => true,
    createDirOk := fun _ => true,
    dupStdoutOk := true, dupStderrOk := true, tryCloneOk := true,
    writeOk := true, spawnOk := true, childExit := some 7 }

/-- An atomic-mode configuration redirecting both stdout and stderr. -/
def atomicArgv : Argv :=
  { stdin := StdIn.inherit,
    stdout := StdStream.redirect "out.txt",
    stderr := StdStream.redirect "err.txt",
    command := ["cmd"], workdir := none,
    env_unset := [], env_set := [], env_clear := false,
    tmpdir := none, exitfile := none, is_atomic := true }

/-- `atomicArgv` with an exit-code file and stderr inherited. -/
def exitArgv : Argv :=
  { atomicArgv with exitfile := some "ec", stderr := StdStream.inherit }

/-- `okWorld` where creating the second named temporary file fails. -/
def sndTempFailWorld : World :=
  { okWorld with tempOk := fun n => decide (n = 0) }

/-- `okWorld` where every persist (rename) fails. -/
def persistFailWorld : World :=
  { okWorld with persistOk := fun _ => false }

/-- Parsed flags where every path-taking stream flag is the literal `-`. -/
def mDash : ArgMatches :=
  { in_null := false, in_file := some "-",
    out_null := false, out_err := false, out_file := some "-",
    err_null := false, err_out := false, err_file := some "-",
    command := ["cmd"], workdir := none, unset := [], env := [],
    noenv := false, atomic := false, tmpdir := none, exitfile := none }

/-- Parsed flags where no stream flag at all is given. -/
def mNone : ArgMatches :=
  { mDash with in_file := none, out_file := none, err_file := none }

/-- `atomicArgv` with one `--env` argument that is not valid UTF-8. -/
def envBadArgv : Argv :=
  { atomicArgv with env_set := [[255]] }

end Cenv

namespace Cenv

theorem stagedOf_nil : stagedOf [] = [] := rfl

theorem stagedOf_append (l1 l2 : List Event) :
    stagedOf (l1 ++ l2) = stagedOf l1 ++ stagedOf l2 :=
  List.filterMap_append l1 l2 _

theorem StRel_refl (s : St) : StRel s s := by
  refine ⟨le_refl _, [], by simp, by simp, by simp, by simp [stagedOf], ?_, ?_⟩ <;>
    simp [stagedOf]

theorem StRel_trans {s t u : St} (h1 : StRel s t) (h2 : StRel t u) : StRel s u := by
  obtain ⟨hn1, L1, ht1, hs1, hr1, hm1, hb1, hp1⟩ := h1
  obtain ⟨hn2, L2, ht2, hs2, hr2, hm2, hb2, hp2⟩ := h2
  refine ⟨le_trans hn1 hn2, L1 ++ L2, ?_, ?_, ?_, ?_, ?_, ?_⟩
  · rw [ht2, ht1, List.append_assoc]
  · simp only [List.mem_append, not_or]; exact ⟨hs1, hs2⟩
  · intro i d
    constructor
    · simp only [List.mem_append, not_or]; exact ⟨(hr1 i d).1, (hr2 i d).1⟩
    · simp only [List.mem_append, not_or]; exact ⟨(hr1 i d).2, (hr2 i d).2⟩
  · rw [hm2, hm1, stagedOf_append, List.append_assoc]
  · intro x hx
    rw [stagedOf_append, List.mem_append] at hx
    rcases hx with hx | hx
    · exact ⟨(hb1 x hx).1, lt_of_lt_of_le (hb1 x hx).2 hn2⟩
    · exact ⟨le_trans hn1 (hb2 x hx).1, (hb2 x hx).2⟩
  · rw [stagedOf_append, List.pairwise_append]
    refine ⟨hp1, hp2, ?_⟩
    intro x hx y hy
    exact lt_of_lt_of_le (hb1 x hx).2 (hb2 y hy).1

theorem goodStep_atomic (w : World) (td : String) :
    GoodStep (atomic_create_file w td) := by
  intro p s f s1 h
  unfold atomic_create_file at h
  split at h
  · rcases h with ⟨⟩
    refine ⟨Nat.le_succ _, [Event.stageTemp s.nextTemp p], rfl, by simp, by simp, ?_, ?_, ?_⟩
    · simp [stagedOf]
    · intro x hx
      simp [stagedOf] at hx
      subst hx
      exact ⟨le_refl _, Nat.lt_succ_self _⟩
    · simp [stagedOf]
  · exact absurd h (by simp)

theorem goodStep_direct (w : World) :
    GoodStep (direct_create_file w) := by
  intro p s f s1 h
  unfold direct_create_file at h
  split at h
  · rcases h with ⟨⟩
    refine ⟨le_refl _, [Event.createDirect p], rfl, by simp, by simp, ?_, ?_, ?_⟩ <;>
      simp [stagedOf]
  · exact absurd h (by simp)

theorem resolve_plain_rel {cf : String → St → Option (FileHandle × St)}
    (hcf : GoodStep cf) (msg : String) (str : StdStream) (s : St) :
    StRel s (resolve_plain cf msg str s).2 := by
  cases str with
  | null => exact StRel_refl s
  | inherit => exact StRel_refl s
  | other => exact StRel_refl s
  | redirect path =>
      simp only [resolve_plain]
      rcases h : cf path s with _ | ⟨f, s1⟩
      · simp only [h]; exact StRel_refl s
      · simp only [h]; exact hcf path s f s1 h

theorem create_out_err_rel {cf : String → St → Option (FileHandle × St)}
    (hcf : GoodStep cf) (w : World) (out err : StdStream) (s : St) :
    StRel s (create_out_err w cf out err s).2 := by
  cases out <;> cases err <;> simp only [create_out_err, resolve_plain] <;>
    try exact StRel_refl s
  case null.redirect q =>
    rcases h : cf q s with _ | ⟨f, s1⟩ <;> simp only [h]
    · exact StRel_refl s
    · exact hcf q s f s1 h
  case inherit.redirect q =>
    rcases h : cf q s with _ | ⟨f, s1⟩ <;> simp only [h]
    · exact StRel_refl s
    · exact hcf q s f s1 h
  case redirect.null p =>
    rcases h : cf p s with _ | ⟨f, s1⟩ <;> simp only [h]
    · exact StRel_refl s
    · exact hcf p s f s1 h
  case redirect.inherit p =>
    rcases h : cf p s with _ | ⟨f, s1⟩ <;> simp only [h]
    · exact StRel_refl s
    · exact hcf p s f s1 h
  case redirect.redirect p q =>
    rcases h : cf p s with _ | ⟨f, s1⟩ <;> simp only [h]
    · exact StRel_refl s
    · rcases h2 : cf q s1 with _ | ⟨g, s2⟩ <;> simp only [h2]
      · exact hcf p s f s1 h
      · exact StRel_trans (hcf p s f s1 h) (hcf q s1 g s2 h2)
  case redirect.other p =>
    rcases h : cf p s with _ | ⟨f, s1⟩ <;> simp only [h]
    · exact StRel_refl s
    · split <;> exact hcf p s f s1 h
  case other.redirect q =>
    rcases h : cf q s with _ | ⟨f, s1⟩ <;> simp only [h]
    · exact StRel_refl s
    · split <;> exact hcf q s f s1 h
  case other.other =>
    split
    · split <;> exact StRel_refl s
    · exact StRel_refl s

end Cenv

namespace Cenv

theorem goodStep_choose (w : World) (b : Bool) (td : String) :
    GoodStep (choose_cf w b td) := by
  unfold choose_cf
  split
  · exact goodStep_atomic w td
  · exact goodStep_direct w

theorem create_stdio_rel {cf : String → St → Option (FileHandle × St)}
    (hcf : GoodStep cf) (w : World) (i : StdIn) (o e : StdStream) (s : St) :
    StRel s (create_stdio w i o e cf s).2 := by
  unfold create_stdio
  rcases hri : resolve_stdin w i with m | hin <;> simp only [hri]
  · exact StRel_refl s
  · rcases h : create_out_err w cf o e s with ⟨r, s1⟩
    have hrel : StRel s s1 := by
      have h2 := create_out_err_rel hcf w o e s
      rw [h] at h2
      exact h2
    cases r with
    | error m => simp only [h]; exact hrel
    | ok p =>
        rcases p with ⟨ho, he⟩
        simp only [h]
        exact hrel

theorem phase_tmpdir_rel (a : Argv) (w : World) :
    StRel st0 (phase_tmpdir a w).2 := by
  unfold phase_tmpdir
  rcases a.tmpdir with _ | p
  · exact StRel_refl st0
  · simp only
    split
    · refine ⟨le_refl _, [Event.createDir p], rfl, by simp, by simp, ?_, ?_, ?_⟩ <;>
        simp [stagedOf]
    · exact StRel_refl st0

theorem phase_workdir_rel (a : Argv) (w : World) (s : St) :
    StRel s (phase_workdir a w s).2 := by
  unfold phase_workdir
  rcases a.workdir with _ | wd
  · exact StRel_refl s
  · simp only
    split
    · refine ⟨le_refl _, [Event.createDir wd], rfl, by simp, by simp, ?_, ?_, ?_⟩ <;>
        simp [stagedOf]
    · exact StRel_refl s

theorem exitfile_rel (a : Argv) (w : World) (s : St) :
    ∃ L, (exitfile_phase a w s).2.trace = s.trace ++ L ∧
      stagedOf L = [] ∧ Event.spawn ∉ L ∧
      (∀ i d, Event.renameOk i d ∉ L ∧ Event.renameFail i d ∉ L) ∧
      (exitfile_phase a w s).2.to_move = s.to_move ∧
      s.nextTemp ≤ (exitfile_phase a w s).2.nextTemp := by
  unfold exitfile_phase
  rcases a.exitfile with _ | path
  · exact ⟨[], by simp, rfl, by simp, by simp, rfl, le_refl _⟩
  · simp only
    split
    · -- atomic mode
      split
      · -- temp creation succeeds
        split
        · -- write succeeds
          split
          · -- persist succeeds
            refine ⟨[Event.exitTempStage s.nextTemp, Event.exitRenameOk s.nextTemp path],
              ?_, ?_, ?_, ?_, ?_, ?_⟩ <;> simp [stagedOf]
          · -- persist fails
            refine ⟨[Event.exitTempStage s.nextTemp], ?_, ?_, ?_, ?_, ?_, ?_⟩ <;>
              simp [stagedOf]
        · -- write fails
          refine ⟨[Event.exitTempStage s.nextTemp], ?_, ?_, ?_, ?_, ?_, ?_⟩ <;>
            simp [stagedOf]
      · -- temp creation fails
        exact ⟨[], by simp, rfl, by simp, by simp, rfl, le_refl _⟩
    · -- direct mode
      split
      · split
        · refine ⟨[Event.createDirect path], ?_, ?_, ?_, ?_, ?_, ?_⟩ <;> simp [stagedOf]
        · refine ⟨[Event.createDirect path], ?_, ?_, ?_, ?_, ?_, ?_⟩ <;> simp [stagedOf]
      · exact ⟨[], by simp, rfl, by simp, by simp, rfl, le_refl _⟩

theorem exitfile_err_msgs (a : Argv) (w : World) (s : St) :
    ∀ m t, exitfile_phase a w s = (Except.error m, t) → m ∈ postSpawnMsgs := by
  intro m t h
  unfold exitfile_phase at h
  rcases hx : a.exitfile with _ | path <;> rw [hx] at h
  · simp at h
  · simp only at h
    split at h
    · split at h
      · split at h
        · split at h
          · simp at h
          · simp only [Prod.mk.injEq, Except.error.injEq] at h
            rw [← h.1]
            decide
        · simp only [Prod.mk.injEq, Except.error.injEq] at h
          rw [← h.1]
          decide
      · simp only [Prod.mk.injEq, Except.error.injEq] at h
        rw [← h.1]
        decide
    · split at h
      · split at h
        · simp at h
        · simp only [Prod.mk.injEq, Except.error.injEq] at h
          rw [← h.1]
          decide
      · simp only [Prod.mk.injEq, Except.error.injEq] at h
        rw [← h.1]
        decide

end Cenv

namespace Cenv

theorem runCore_shape (a : Argv) (w : World) :
    (StRel st0 (runCore a w).2 ∧ (∀ c, (runCore a w).1 ≠ Except.ok c))
  ∨ (∃ s3, StRel st0 s3 ∧
      compose_env w.parentEnv a.env_clear a.env_unset a.env_set ≠ none ∧
      (runCore a w).2.to_move = s3.to_move ∧
      (∃ L, (runCore a w).2.trace = s3.trace ++ Event.spawn :: L ∧
            stagedOf L = [] ∧
            (∀ i d, Event.renameOk i d ∉ L ∧ Event.renameFail i d ∉ L)) ∧
      (∀ c, (runCore a w).1 = Except.ok c → c = w.childExit) ∧
      (∀ m, (runCore a w).1 = Except.error m → m ∈ postSpawnMsgs)) := by
  unfold runCore
  split
  · left
    exact ⟨StRel_refl st0, by simp⟩
  · split
    · next e s heq1 =>
        left
        refine ⟨?_, by simp⟩
        have h1 := phase_tmpdir_rel a w
        rw [heq1] at h1
        exact h1
    · next tempdir s1 heq1 =>
        have hrel1 : StRel st0 s1 := by
          have h1 := phase_tmpdir_rel a w
          rw [heq1] at h1
          exact h1
        split
        · next e s heq2 =>
            left
            refine ⟨?_, by simp⟩
            have h2 := create_stdio_rel (goodStep_choose w a.is_atomic tempdir) w
              a.stdin a.stdout a.stderr s1
            rw [heq2] at h2
            exact StRel_trans hrel1 h2
        · next _handles s2 heq2 =>
            have hrel2 : StRel st0 s2 := by
              have h2 := create_stdio_rel (goodStep_choose w a.is_atomic tempdir) w
                a.stdin a.stdout a.stderr s1
              rw [heq2] at h2
              exact StRel_trans hrel1 h2
            split
            · next e s heq3 =>
                left
                refine ⟨?_, by simp⟩
                have h3 := phase_workdir_rel a w s2
                rw [heq3] at h3
                exact StRel_trans hrel2 h3
            · next _u s3 heq3 =>
                have hrel3 : StRel st0 s3 := by
                  have h3 := phase_workdir_rel a w s2
                  rw [heq3] at h3
                  exact StRel_trans hrel2 h3
                split
                · left
                  exact ⟨hrel3, by simp⟩
                · next env0 heqE =>
                    split
                    · -- spawnOk = true
                      split
                      · next e s heq5 =>
                          obtain ⟨L, hLtr, hLs, hLsp, hLr, hLm, hLn⟩ :=
                            exitfile_rel a w { s3 with trace := s3.trace ++ [Event.spawn] }
                          rw [heq5] at hLtr hLm
                          right
                          refine ⟨s3, hrel3, by simp [heqE], ?_, ?_, by simp, ?_⟩
                          · exact hLm
                          · exact ⟨L, by simpa [List.append_assoc] using hLtr, hLs, hLr⟩
                          · intro m hm
                            simp only [Except.error.injEq] at hm
                            exact hm ▸ exitfile_err_msgs a w
                              { s3 with trace := s3.trace ++ [Event.spawn] } e s heq5
                      · next _u s5 heq5 =>
                          obtain ⟨L, hLtr, hLs, hLsp, hLr, hLm, hLn⟩ :=
                            exitfile_rel a w { s3 with trace := s3.trace ++ [Event.spawn] }
                          rw [heq5] at hLtr hLm
                          right
                          refine ⟨s3, hrel3, by simp [heqE], ?_, ?_, ?_, by simp⟩
                          · exact hLm
                          · exact ⟨L, by simpa [List.append_assoc] using hLtr, hLs, hLr⟩
                          · intro c hc
                            simp only [Except.ok.injEq] at hc
                            exact hc.symm
                    · -- spawnOk = false
                      left
                      exact ⟨hrel3, by simp⟩

end Cenv

namespace Cenv

theorem stagedOf_cons_spawn (l : List Event) :
    stagedOf (Event.spawn :: l) = stagedOf l := rfl

theorem runCore_inv (a : Argv) (w : World) :
    (runCore a w).2.to_move = stagedOf (runCore a w).2.trace ∧
    List.Pairwise (fun x y : Nat × String => x.1 < y.1) (runCore a w).2.to_move ∧
    (∀ i d, Event.renameOk i d ∉ (runCore a w).2.trace ∧
            Event.renameFail i d ∉ (runCore a w).2.trace) := by
  rcases runCore_shape a w with
    ⟨⟨_, L, htr, _, hr, hm, _, hp⟩, _⟩ |
    ⟨s3, ⟨_, L1, htr1, _, hr1, hm1, _, hp1⟩, _, hmv, ⟨L2, htr2, hst2, hr2⟩, _, _⟩
  · refine ⟨?_, ?_, ?_⟩
    · rw [htr, hm]
      simp [st0]
    · rw [hm]
      simpa [st0] using hp
    · intro i d
      rw [htr]
      simp only [st0, List.nil_append, List.mem_append]
      exact (hr i d)
  · refine ⟨?_, ?_, ?_⟩
    · rw [htr2, hmv, hm1, htr1]
      rw [stagedOf_append, stagedOf_append, stagedOf_cons_spawn, hst2]
      simp [st0, stagedOf_nil]
    · rw [hmv, hm1]
      simpa [st0] using hp1
    · intro i d
      rw [htr2, htr1]
      simp only [st0, List.nil_append, List.mem_append, List.mem_cons, not_or]
      constructor
      · exact ⟨(hr1 i d).1, by simp, (hr2 i d).1⟩
      · exact ⟨(hr1 i d).2, by simp, (hr2 i d).2⟩

theorem mem_stagedOf {tr : List Event} {i : Nat} {d : String} :
    (i, d) ∈ stagedOf tr ↔ Event.stageTemp i d ∈ tr := by
  induction tr with
  | nil => simp [stagedOf]
  | cons e rest ih =>
      cases e <;>
        simp only [stagedOf, List.filterMap_cons] at ih ⊢ <;>
        simp_all

theorem drain_trace (w : World) (s : St) :
    (drain w s).trace = s.trace ++ s.to_move.map (persistEvt w) := rfl

theorem drain_to_move (w : World) (s : St) : (drain w s).to_move = [] := rfl

theorem spawn_not_mem_persist_map (w : World) (l : List (Nat × String)) :
    Event.spawn ∉ l.map (persistEvt w) := by
  simp only [List.mem_map, not_exists, not_and]
  intro x _
  unfold persistEvt
  split <;> simp

theorem count_persistEvt (w : World) (l : List (Nat × String))
    (hp : List.Pairwise (fun x y : Nat × String => x.1 < y.1) l)
    (i : Nat) (d : String) (hm : (i, d) ∈ l) :
    ((l.map (persistEvt w)).count (Event.renameOk i d)
      + (l.map (persistEvt w)).count (Event.renameFail i d) = 1)
    ∧ (Event.renameOk i d ∈ l.map (persistEvt w) ↔ w.persistOk i = true) := by
  induction l with
  | nil => simp at hm
  | cons a t ih =>
      obtain ⟨ha, hpt⟩ := List.pairwise_cons.mp hp
      rcases List.mem_cons.mp hm with heq | hmem
      · -- the head is this artifact
        have hne : ∀ y ∈ t, y.1 ≠ i := by
          intro y hy
          have := ha y hy
          rw [← heq] at this
          omega
        have hok : Event.renameOk i d ∉ t.map (persistEvt w) := by
          simp only [List.mem_map, not_exists, not_and]
          intro y hy
          unfold persistEvt
          split <;> simp <;> intro h <;> exact absurd h (hne y hy)
        have hfail : Event.renameFail i d ∉ t.map (persistEvt w) := by
          simp only [List.mem_map, not_exists, not_and]
          intro y hy
          unfold persistEvt
          split <;> simp <;> intro h <;> exact absurd h (hne y hy)
        rw [← heq]
        by_cases hpi : w.persistOk i = true
        · constructor
          · simp [persistEvt, hpi, List.count_cons, List.count_eq_zero.mpr hok,
              List.count_eq_zero.mpr hfail]
          · simp [persistEvt, hpi]
        · constructor
          · simp [persistEvt, hpi, List.count_cons, List.count_eq_zero.mpr hok,
              List.count_eq_zero.mpr hfail]
          · simp [persistEvt, hpi, hok]
      · -- the artifact is in the tail
        have hlt : a.1 < i := by
          have := ha (i, d) hmem
          exact this
        have hne1 : persistEvt w a ≠ Event.renameOk i d := by
          unfold persistEvt
          split <;> simp <;> intro h <;> omega
        have hne2 : persistEvt w a ≠ Event.renameFail i d := by
          unfold persistEvt
          split <;> simp <;> intro h <;> omega
        obtain ⟨ihc, ihm⟩ := ih hpt hmem
        constructor
        · simp only [List.map_cons, List.count_cons]
          simp [hne1, hne2]
          omega
        · simp only [List.map_cons, List.mem_cons]
          rw [← ihm]
          simp [Ne.symm hne1]

end Cenv

namespace Cenv

theorem splitFirstEq_no_eq (s : List Nat) (h : 61 ∉ s) : splitFirstEq s = (s, []) := by
  induction s with
  | nil => rfl
  | cons b r ih =>
      simp only [List.mem_cons, not_or] at h
      simp only [splitFirstEq, if_neg (Ne.symm h.1), ih h.2]

theorem splitFirstEq_first (k v : List Nat) (h : 61 ∉ k) :
    splitFirstEq (k ++ 61 :: v) = (k, v) := by
  induction k with
  | nil => simp [splitFirstEq]
  | cons b r ih =>
      simp only [List.mem_cons, not_or] at h
      simp only [List.cons_append, splitFirstEq, if_neg (Ne.symm h.1)]
      show (b :: (splitFirstEq (r ++ 61 :: v)).1, (splitFirstEq (r ++ 61 :: v)).2) = (b :: r, v)
      rw [ih h.2]

theorem env_to_kv_none_iff (arg : List Nat) :
    env_to_kv arg = none ↔ validUtf8 arg = false := by
  unfold env_to_kv
  split <;> simp_all

theorem envLookup_nil (q : List Nat) : envLookup [] q = none := rfl

theorem envLookup_cons (p : List Nat × List Nat) (l : EnvMap) (q : List Nat) :
    envLookup (p :: l) q = if p.1 = q then some p.2 else envLookup l q := by
  by_cases h : p.1 = q <;> simp [envLookup, List.find?, h]

theorem envLookup_append (l1 l2 : EnvMap) (q : List Nat) :
    envLookup (l1 ++ l2) q =
      match envLookup l1 q with
      | some v => some v
      | none => envLookup l2 q := by
  induction l1 with
  | nil => simp [envLookup_nil]
  | cons p r ih =>
      rw [List.cons_append, envLookup_cons, envLookup_cons]
      by_cases h : p.1 = q
      · simp [h]
      · simp only [h, if_false]
        exact ih

theorem envLookup_remove (e : EnvMap) (k q : List Nat) :
    envLookup (envRemove e k) q = if q = k then none else envLookup e q := by
  induction e with
  | nil => simp [envRemove, envLookup_nil]
  | cons p r ih =>
      unfold envRemove at ih ⊢
      by_cases hpk : p.1 = k
      · rw [List.filter_cons_of_neg (by simp [hpk])]
        rw [ih, envLookup_cons]
        by_cases hqk : q = k
        · simp [hqk]
        · have hpq : ¬ p.1 = q := by rw [hpk]; exact fun hh => hqk hh.symm
          simp [hqk, hpq]
      · rw [List.filter_cons_of_pos (by simp [hpk])]
        rw [envLookup_cons, envLookup_cons, ih]
        by_cases hpq : p.1 = q
        · have hqk : ¬ q = k := by rw [← hpq]; exact hpk
          simp [hpq, hqk]
        · simp [hpq]

theorem envLookup_remove_self (e : EnvMap) (k : List Nat) :
    envLookup (envRemove e k) k = none := by
  rw [envLookup_remove]
  simp

theorem envLookup_remove_ne (e : EnvMap) (k q : List Nat) (h : q ≠ k) :
    envLookup (envRemove e k) q = envLookup e q := by
  rw [envLookup_remove]
  simp [h]

theorem envLookup_insert_self (e : EnvMap) (k v : List Nat) :
    envLookup (envInsert e k v) k = some v := by
  unfold envInsert
  rw [envLookup_append, envLookup_remove_self, envLookup_cons]
  simp

theorem envLookup_insert_ne (e : EnvMap) (k v q : List Nat) (h : q ≠ k) :
    envLookup (envInsert e k v) q = envLookup e q := by
  unfold envInsert
  rw [envLookup_append, envLookup_remove_ne e k q h]
  cases hl : envLookup e q with
  | some x => simp
  | none =>
      simp only
      rw [envLookup_cons, if_neg (Ne.symm h)]
      exact envLookup_nil q

theorem envLookup_foldl_remove (unsets : List (List Nat)) (e0 : EnvMap) (q : List Nat) :
    envLookup (unsets.foldl envRemove e0) q =
      if q ∈ unsets then none else envLookup e0 q := by
  induction unsets generalizing e0 with
  | nil => simp
  | cons u rest ih =>
      simp only [List.foldl_cons]
      rw [ih]
      by_cases h : q = u
      · subst h
        by_cases h2 : q ∈ rest <;> simp [h2, envLookup_remove_self]
      · by_cases h2 : q ∈ rest <;> simp [h2, h, envLookup_remove_ne e0 u q h]

theorem foldlM_option_append {α β : Type} (f : β → α → Option β) (l : List α)
    (a : α) (b : β) :
    (l ++ [a]).foldlM f b = (l.foldlM f b).bind (fun x => f x a) := by
  induction l generalizing b with
  | nil => cases h : f b a <;> simp [List.foldlM, h]
  | cons x r ih =>
      simp only [List.cons_append, List.foldlM]
      cases h : f b x <;> simp [h, ih]

end Cenv

namespace Cenv

theorem foldlM_envStep_lookup (q : List Nat) (sets : List (List Nat)) :
    ∀ (e1 e : EnvMap), sets.foldlM envStep e1 = some e →
      envLookup e q =
        match lastSet sets q with
        | some v => some v
        | none => envLookup e1 q := by
  induction sets using List.reverseRecOn with
  | nil =>
      intro e1 e h
      simp only [List.foldlM] at h
      cases h
      simp [lastSet]
  | append_singleton l a ih =>
      intro e1 e h
      rw [foldlM_option_append] at h
      rcases h2 : l.foldlM envStep e1 with _ | e2 <;> rw [h2] at h
      · simp at h
      · simp only [Option.some_bind] at h
        rcases h3 : env_to_kv a with _ | kv <;> rw [envStep, h3] at h
        · simp at h
        · have h5 : envInsert e2 kv.1 kv.2 = e := by simpa using h
          subst h5
          by_cases h4 : kv.1 = q
          · have hls : lastSet (l ++ [a]) q = some kv.2 := by
              unfold lastSet
              rw [List.reverse_append]
              simp [List.find?, h3, h4]
            rw [hls, ← h4]
            exact envLookup_insert_self e2 kv.1 kv.2
          · have hls : lastSet (l ++ [a]) q = lastSet l q := by
              unfold lastSet
              rw [List.reverse_append]
              simp [List.find?, h3, h4]
            rw [hls, envLookup_insert_ne e2 kv.1 kv.2 q (fun hh => h4 hh.symm)]
            exact ih e1 e2 h2

theorem compose_env_lookup (init : EnvMap) (clear : Bool)
    (unsets sets : List (List Nat)) (e : EnvMap) (q : List Nat)
    (h : compose_env init clear unsets sets = some e) :
    envLookup e q =
      match lastSet sets q with
      | some v => some v
      | none =>
          if clear = true ∨ q ∈ unsets then none else envLookup init q := by
  unfold compose_env at h
  rw [foldlM_envStep_lookup q sets _ e h]
  cases hls : lastSet sets q with
  | some v => simp
  | none =>
      simp only
      rw [envLookup_foldl_remove]
      by_cases h1 : q ∈ unsets
      · simp [h1]
      · by_cases h2 : clear = true
        · simp [h1, h2, envLookup_nil]
        · simp only [Bool.not_eq_true] at h2
          simp [h1, h2]

theorem compose_env_invalid (init : EnvMap) (clear : Bool)
    (unsets sets : List (List Nat)) (bs : List Nat)
    (hbs : bs ∈ sets) (hv : validUtf8 bs = false) :
    compose_env init clear unsets sets = none := by
  unfold compose_env
  simp only
  generalize (List.foldl envRemove (if clear = true then [] else init) unsets) = e1
  induction sets generalizing e1 with
  | nil => simp at hbs
  | cons x r ih =>
      rcases List.mem_cons.mp hbs with rfl | hmem
      · have hstep : envStep e1 bs = none := by
          simp [envStep, env_to_kv, hv]
        simp [List.foldlM, hstep]
      · cases h : envStep e1 x with
        | none => simp [List.foldlM, h]
        | some e2 =>
            simp only [List.foldlM, h, Option.some_bind]
            exact ih hmem e2

end Cenv

namespace Cenv

/-- C3: When both stdout and stderr resolve to Shared (`--out-err` with
`--err-out`), the wiring opens no file — the provisioning state `s` is
returned untouched for an arbitrary `create_file` closure — and the
child's stdout handle is a duplicate of the parent's current stderr
descriptor while the child's stderr handle is a duplicate of the parent's
current stdout descriptor (the cross-swap), obtained by OS-level
descriptor duplication (`os_pipe::parent_stderr` / `parent_stdout`). -/
theorem claim3_shared_shared_cross_dup {σ : Type} (w : World) (i : StdIn)
    (cf : String → σ → Option (FileHandle × σ)) (s : σ) (hin : Handle)
    (h1 : w.dupStdoutOk = true) (h2 : w.dupStderrOk = true)
    (h3 : resolve_stdin w i = Except.ok hin) :
    create_stdio w i StdStream.other StdStream.other cf s =
      (Except.ok (hin, Handle.dupParentStderr, Handle.dupParentStdout), s) := by
  unfold create_stdio
  rw [h3]
  simp [create_out_err, h1, h2]

theorem claim3_witness :
    create_stdio okWorld StdIn.inherit StdStream.other StdStream.other
        (direct_create_file okWorld) st0 =
      (Except.ok (Handle.inherit, Handle.dupParentStderr, Handle.dupParentStdout), st0) :=
  claim3_shared_shared_cross_dup okWorld StdIn.inherit (direct_create_file okWorld)
    st0 Handle.inherit rfl rfl rfl

/-- C4: When exactly one of stdout/stderr is Shared and the other is
Redirect(p) (either order), the wiring is exactly one application of the
provisioning closure at `p`; the second handle is a `try_clone` duplicate
of the created handle (not a second open), and the two streams receive
the duplicate and the original of that one handle.  In atomic mode this
stages exactly one pending artifact for `p`. -/
theorem claim4_shared_redirect_single_open :
    (∀ (σ : Type) (w : World) (i : StdIn)
        (cf : String → σ → Option (FileHandle × σ)) (s : σ) (p : String) (hin : Handle),
      resolve_stdin w i = Except.ok hin → w.tryCloneOk = true →
      create_stdio w i StdStream.other (StdStream.redirect p) cf s =
        (match cf p s with
         | none => (Except.error "Failed to create STDOUT/ERR file!", s)
         | some (f, s1) => (Except.ok (hin, Handle.dupFile f, Handle.fromFile f), s1)) ∧
      create_stdio w i (StdStream.redirect p) StdStream.other cf s =
        (match cf p s with
         | none => (Except.error "Failed to create STDOUT/ERR file!", s)
         | some (f, s1) => (Except.ok (hin, Handle.dupFile f, Handle.fromFile f), s1)))
  ∧ (∀ (w : World) (td p : String) (s : St) (hin : Handle) (i : StdIn),
      resolve_stdin w i = Except.ok hin → w.tryCloneOk = true →
      w.tempOk s.nextTemp = true →
      (create_stdio w i StdStream.other (StdStream.redirect p)
          (atomic_create_file w td) s).2.to_move = s.to_move ++ [(s.nextTemp, p)]) := by
  constructor
  · intro σ w i cf s p hin h1 h2
    constructor
    · unfold create_stdio
      rw [h1]
      rcases h : cf p s with _ | ⟨f, s1⟩ <;> simp [create_out_err, h, h2]
    · unfold create_stdio
      rw [h1]
      rcases h : cf p s with _ | ⟨f, s1⟩ <;> simp [create_out_err, h, h2]
  · intro w td p s hin i h1 h2 h3
    unfold create_stdio
    rw [h1]
    simp [create_out_err, atomic_create_file, h3, h2]

theorem claim4_witness :
    create_stdio okWorld StdIn.null StdStream.other (StdStream.redirect "log")
        (direct_create_file okWorld) st0 =
      (Except.ok (Handle.null, Handle.dupFile (FileHandle.direct "log"),
                  Handle.fromFile (FileHandle.direct "log")),
       { st0 with trace := [Event.createDirect "log"] }) ∧
    (create_stdio okWorld StdIn.null StdStream.other (StdStream.redirect "log")
        (atomic_create_file okWorld "/tmp") st0).2.to_move = [(0, "log")] := by
  constructor
  · have h := (claim4_shared_redirect_single_open.1 St okWorld StdIn.null
      (direct_create_file okWorld) st0 "log" Handle.null rfl rfl).1
    rw [h]
    rfl
  · have h := claim4_shared_redirect_single_open.2 okWorld "/tmp" "log" st0
      Handle.null StdIn.null rfl rfl rfl
    rw [h]
    decide

/-- C10: A stdin Redirect disposition is resolved to the plain read-only
open `fs::File::open(path)` (`Handle.openRead`), independently of the
provisioning closure: the provisioning state is passed through untouched
to the stdout/stderr resolution, so the sink-provisioning function is
never invoked for stdin and no pending artifact is ever registered on
stdin's account.  With non-file siblings the state is returned exactly
unchanged. -/
theorem claim10_stdin_readonly_no_provision :
    (∀ (σ : Type) (w : World) (out err : StdStream)
        (cf : String → σ → Option (FileHandle × σ)) (s : σ) (p : String),
      w.openOk p = true →
      create_stdio w (StdIn.redirect p) out err cf s =
        ((create_out_err w cf out err s).1.map (fun oe => (Handle.openRead p, oe.1, oe.2)),
         (create_out_err w cf out err s).2))
  ∧ (∀ (σ : Type) (w : World) (cf : String → σ → Option (FileHandle × σ))
        (s : σ) (p : String),
      w.openOk p = true →
      create_stdio w (StdIn.redirect p) StdStream.inherit StdStream.inherit cf s =
        (Except.ok (Handle.openRead p, Handle.inherit, Handle.inherit), s)) := by
  constructor
  · intro σ w out err cf s p hopen
    unfold create_stdio
    simp only [resolve_stdin, hopen, if_true]
    rcases h : create_out_err w cf out err s with ⟨r, s1⟩
    cases r with
    | error e => rfl
    | ok oe =>
        rcases oe with ⟨ho, he⟩
        rfl
  · intro σ w cf s p hopen
    unfold create_stdio
    simp only [resolve_stdin, hopen, if_true]
    simp [create_out_err, resolve_plain]

theorem claim10_witness :
    create_stdio okWorld (StdIn.redirect "input") StdStream.inherit StdStream.inherit
        (atomic_create_file okWorld "/tmp") st0 =
      (Except.ok (Handle.openRead "input", Handle.inherit, Handle.inherit), st0) :=
  claim10_stdin_readonly_no_provision.2 St okWorld
    (atomic_create_file okWorld "/tmp") st0 "input" rfl

/-- C7: For each stream, a path-flag value equal to `-` resolves to the
Inherit disposition instead of being treated as a filename (for
`--in-file`, `--out-file` and `--err-file` alike), and a stream whose
exclusive flag group is entirely absent defaults to Inherit. -/
theorem claim7_dash_and_default_inherit (m : ArgMatches) :
    stream_file_arg (some "-") = StdStream.inherit ∧
    stdin_file_arg (some "-") = StdIn.inherit ∧
    stream_file_arg none = StdStream.inherit ∧
    stdin_file_arg none = StdIn.inherit ∧
    (m.in_null = false → m.in_file = some "-" →
        (extract_args m).stdin = StdIn.inherit) ∧
    (m.out_null = false → m.out_err = false → m.out_file = some "-" →
        (extract_args m).stdout = StdStream.inherit) ∧
    (m.err_null = false → m.err_out = false → m.err_file = some "-" →
        (extract_args m).stderr = StdStream.inherit) ∧
    (m.in_null = false → m.in_file = none →
        (extract_args m).stdin = StdIn.inherit) ∧
    (m.out_null = false → m.out_err = false → m.out_file = none →
        (extract_args m).stdout = StdStream.inherit) ∧
    (m.err_null = false → m.err_out = false → m.err_file = none →
        (extract_args m).stderr = StdStream.inherit) := by
  refine ⟨by decide, by decide, rfl, rfl, ?_, ?_, ?_, ?_, ?_, ?_⟩
  · intro h1 h2
    simp [extract_args, h1, h2, stdin_file_arg]
  · intro h1 h2 h3
    simp [extract_args, h1, h2, h3, stream_file_arg]
  · intro h1 h2 h3
    simp [extract_args, h1, h2, h3, stream_file_arg]
  · intro h1 h2
    simp [extract_args, h1, h2, stdin_file_arg]
  · intro h1 h2 h3
    simp [extract_args, h1, h2, h3, stream_file_arg]
  · intro h1 h2 h3
    simp [extract_args, h1, h2, h3, stream_file_arg]

theorem claim7_witness :
    (extract_args mDash).stdin = StdIn.inherit ∧
    (extract_args mDash).stdout = StdStream.inherit ∧
    (extract_args mDash).stderr = StdStream.inherit ∧
    (extract_args mNone).stdout = StdStream.inherit := by
  have h1 := claim7_dash_and_default_inherit mDash
  have h2 := claim7_dash_and_default_inherit mNone
  exact ⟨h1.2.2.2.2.1 rfl rfl, h1.2.2.2.2.2.1 rfl rfl rfl,
    h1.2.2.2.2.2.2.1 rfl rfl rfl, h2.2.2.2.2.2.2.2.2.1 rfl rfl rfl⟩

end Cenv

namespace Cenv

theorem runModel_fst (a : Argv) (w : World) : (runModel a w).1 = (runCore a w).1 := rfl

theorem runModel_snd (a : Argv) (w : World) :
    (runModel a w).2 = drain w (runCore a w).2 := rfl

/-- C6: When the run completes normally, the supervisor's exit code equals
the child's exit code, and is 0 when the child's exit code is unavailable
(signal termination, `code()` returning `None`). -/
theorem claim6_exit_code_mirror (a : Argv) (w : World) (c : Option Nat)
    (h : (runModel a w).1 = Except.ok c) :
    c = w.childExit ∧ mainExit a w = (w.childExit).getD 0 ∧
    (∀ n, c = some n → mainExit a w = n) ∧ (c = none → mainExit a w = 0) := by
  have hc : (runCore a w).1 = Except.ok c := h
  have hcw : c = w.childExit := by
    rcases runCore_shape a w with ⟨_, hne⟩ | ⟨s3, _, _, _, _, hok, _⟩
    · exact absurd hc (hne c)
    · exact hok c hc
  have hme : mainExit a w = c.getD 0 := by
    unfold mainExit
    rw [h]
  refine ⟨hcw, by rw [hme, hcw], ?_, ?_⟩
  · intro n hn
    rw [hme, hn]
    rfl
  · intro hn
    rw [hme, hn]
    rfl

theorem claim6_witness :
    (runModel atomicArgv okWorld).1 = Except.ok (some 7) ∧
    mainExit atomicArgv okWorld = 7 := by
  have h := claim6_exit_code_mirror atomicArgv okWorld (some 7) (by decide)
  exact ⟨by decide, h.2.2.1 7 rfl⟩

/-- C9: `env_to_kv` panics (models to `none`) exactly on byte strings that
are not valid UTF-8 — it is total only on UTF-8-valid inputs — and a run
whose `--env` list contains a non-UTF-8 argument aborts: the child is
never spawned and the run cannot return an exit status. -/
theorem claim9_env_to_kv_utf8 :
    (∀ bs : List Nat, env_to_kv bs = none ↔ validUtf8 bs = false)
  ∧ (∀ (a : Argv) (w : World) (bs : List Nat),
      bs ∈ a.env_set → validUtf8 bs = false →
      Event.spawn ∉ (runModel a w).2.trace ∧
      ∀ c, (runModel a w).1 ≠ Except.ok c) := by
  constructor
  · exact env_to_kv_none_iff
  · intro a w bs hmem hv
    have hcomp : compose_env w.parentEnv a.env_clear a.env_unset a.env_set = none :=
      compose_env_invalid _ _ _ _ bs hmem hv
    rcases runCore_shape a w with ⟨⟨_, L, htr, hsp, _, _, _, _⟩, hne⟩ | ⟨s3, _, hcne, _⟩
    · constructor
      · rw [runModel_snd, drain_trace, htr]
        simp only [st0, List.nil_append, List.mem_append, not_or]
        exact ⟨hsp, spawn_not_mem_persist_map w _⟩
      · intro c
        rw [runModel_fst]
        exact hne c
    · exact absurd hcomp hcne

theorem claim9_witness :
    env_to_kv [255] = none ∧
    Event.spawn ∉ (runModel envBadArgv okWorld).2.trace ∧
    (runModel envBadArgv okWorld).1 ≠ Except.ok (some 7) := by
  have h1 := claim9_env_to_kv_utf8.1 [255]
  have h2 := claim9_env_to_kv_utf8.2 envBadArgv okWorld [255] (by decide) (by decide)
  exact ⟨h1.mpr (by decide), h2.1, h2.2 (some 7)⟩

/-- C8: The child environment is composed by first clearing (if
`--no-environment`), then removing each `--unset` name, then applying
each `--env` pair split at its first `=`: a string with no `=` maps the
whole string to the empty value, `KEY=` maps KEY to the empty string
(present but empty, hence distinguishable from absent), and a lookup in
the composed environment is the last `--env` value for that key, else
`none` if cleared or unset, else the inherited value. -/
theorem claim8_env_composition :
    (∀ (k v : List Nat), 61 ∉ k → validUtf8 (k ++ 61 :: v) = true →
        env_to_kv (k ++ 61 :: v) = some (k, v))
  ∧ (∀ (s : List Nat), 61 ∉ s → validUtf8 s = true → env_to_kv s = some (s, []))
  ∧ (∀ (init : EnvMap) (clear : Bool) (unsets sets : List (List Nat)) (e : EnvMap)
        (q : List Nat),
      compose_env init clear unsets sets = some e →
      envLookup e q =
        match lastSet sets q with
        | some v => some v
        | none => if clear = true ∨ q ∈ unsets then none else envLookup init q)
  ∧ (∀ (init : EnvMap) (clear : Bool) (unsets : List (List Nat)) (k : List Nat)
        (e : EnvMap),
      61 ∉ k → compose_env init clear unsets [k ++ [61]] = some e →
      envLookup e k = some []) := by
  refine ⟨?_, ?_, compose_env_lookup, ?_⟩
  · intro k v hk hval
    simp [env_to_kv, hval, splitFirstEq_first k v hk]
  · intro s hs hval
    simp [env_to_kv, hval, splitFirstEq_no_eq s hs]
  · intro init clear unsets k e hk hcomp
    have hval : validUtf8 (k ++ [61]) = true := by
      by_contra hnv
      rw [Bool.not_eq_true] at hnv
      rw [compose_env_invalid init clear unsets [k ++ [61]] (k ++ [61]) (by simp) hnv]
        at hcomp
      cases hcomp
    have hkv : env_to_kv (k ++ [61]) = some (k, []) := by
      simpa [env_to_kv, hval] using splitFirstEq_first k [] hk
    have hls : lastSet [k ++ [61]] k = some [] := by
      unfold lastSet
      simp [List.find?, hkv]
    have hc := compose_env_lookup init clear unsets [k ++ [61]] e k hcomp
    rw [hls] at hc
    exact hc

theorem claim8_witness :
    env_to_kv [75, 61, 86] = some ([75], [86]) ∧
    env_to_kv [75, 69] = some ([75, 69], []) ∧
    envLookup [([75], ([] : List Nat))] [75] = some [] := by
  have h := claim8_env_composition
  refine ⟨?_, h.2.1 [75, 69] (by decide) (by decide), ?_⟩
  · have h2 := h.1 [75] [86] (by decide) (by decide)
    simpa using h2
  · exact h.2.2.2 [] false [] [75] [([75], [])] (by decide) (by decide)

/-- C1 as stated is false: when provisioning the stderr sink fails after
the stdout sink was already staged, the run does abort before the spawn,
but the scope guard still drains the pending list by calling
`persist` — a rename of the staged artifact to its destination is
attempted (and here succeeds), so the artifact is committed rather than
discarded. -/
theorem claim1_counterexample :
    (runModel atomicArgv sndTempFailWorld).1 =
        Except.error "Failed to create STDERR file!" ∧
    Event.spawn ∉ (runModel atomicArgv sndTempFailWorld).2.trace ∧
    (0, "out.txt") ∈ (runCore atomicArgv sndTempFailWorld).2.to_move ∧
    Event.renameOk 0 "out.txt" ∈ (runModel atomicArgv sndTempFailWorld).2.trace := by
  decide

/-- C1 amended: if provisioning fails, the run aborts before the child is
spawned, and every artifact already staged for the run is drained by the
scope guard: a rename to its destination is attempted for each (committed
on success; on a failed rename the temporary is removed), rather than
being discarded without a rename attempt. -/
theorem claim1_amended (a : Argv) (w : World) (m : String)
    (h1 : (runModel a w).1 = Except.error m) (h2 : m ∈ provisioningMsgs) :
    Event.spawn ∉ (runModel a w).2.trace ∧
    (runModel a w).2.to_move = [] ∧
    (∀ x ∈ (runCore a w).2.to_move,
      (w.persistOk x.1 = true → Event.renameOk x.1 x.2 ∈ (runModel a w).2.trace) ∧
      (w.persistOk x.1 = false → Event.renameFail x.1 x.2 ∈ (runModel a w).2.trace)) := by
  have hc : (runCore a w).1 = Except.error m := h1
  rcases runCore_shape a w with ⟨⟨_, L, htr, hsp, _, _, _, _⟩, _⟩ | ⟨s3, _, _, _, _, _, herr⟩
  · refine ⟨?_, rfl, ?_⟩
    · rw [runModel_snd, drain_trace, htr]
      simp only [st0, List.nil_append, List.mem_append, not_or]
      exact ⟨hsp, spawn_not_mem_persist_map w _⟩
    · intro x hx
      have hmem : persistEvt w x ∈ (runModel a w).2.trace := by
        rw [runModel_snd, drain_trace]
        exact List.mem_append_right _ (List.mem_map_of_mem (persistEvt w) hx)
      constructor
      · intro hp
        have hpe : persistEvt w x = Event.renameOk x.1 x.2 := by
          unfold persistEvt
          rw [if_pos hp]
        rwa [hpe] at hmem
      · intro hp
        have hpe : persistEvt w x = Event.renameFail x.1 x.2 := by
          unfold persistEvt
          rw [if_neg (by simp [hp])]
        rwa [hpe] at hmem
  · have hin := herr m hc
    have hd : ∀ x ∈ provisioningMsgs, x ∉ postSpawnMsgs := by decide
    exact absurd hin (hd m h2)

theorem claim1_amended_witness :
    Event.spawn ∉ (runModel atomicArgv sndTempFailWorld).2.trace ∧
    (runModel atomicArgv sndTempFailWorld).2.to_move = [] ∧
    Event.renameOk 0 "out.txt" ∈ (runModel atomicArgv sndTempFailWorld).2.trace := by
  have h := claim1_amended atomicArgv sndTempFailWorld "Failed to create STDERR file!"
    (by decide) (by decide)
  exact ⟨h.1, h.2.1, (h.2.2 (0, "out.txt") (by decide)).1 (by decide)⟩

/-- C2: every (temp, destination) pair pushed to the pending list during a
run corresponds to exactly one staging event; on every exit of the run
the scope guard empties the list and each pending pair receives exactly
one rename outcome — `renameOk` iff its own persist oracle succeeds,
`renameFail` otherwise — each artifact independently of the others'
failures; nothing is drained twice or silently lost. -/
theorem claim2_pending_drained_once (a : Argv) (w : World) (i : Nat) (d : String)
    (hm : (i, d) ∈ (runCore a w).2.to_move) :
    Event.stageTemp i d ∈ (runCore a w).2.trace ∧
    (∀ j e, Event.stageTemp j e ∈ (runCore a w).2.trace →
        (j, e) ∈ (runCore a w).2.to_move) ∧
    (runModel a w).2.to_move = [] ∧
    ((runModel a w).2.trace.count (Event.renameOk i d)
      + (runModel a w).2.trace.count (Event.renameFail i d) = 1) ∧
    (Event.renameOk i d ∈ (runModel a w).2.trace ↔ w.persistOk i = true) := by
  obtain ⟨hmv, hpw, hnr⟩ := runCore_inv a w
  obtain ⟨hcount, hmem⟩ := count_persistEvt w (runCore a w).2.to_move hpw i d hm
  refine ⟨?_, ?_, rfl, ?_, ?_⟩
  · rw [hmv] at hm
    exact mem_stagedOf.mp hm
  · intro j e hj
    rw [hmv]
    exact mem_stagedOf.mpr hj
  · rw [runModel_snd, drain_trace, List.count_append, List.count_append,
      List.count_eq_zero.mpr (hnr i d).1, List.count_eq_zero.mpr (hnr i d).2]
    simpa using hcount
  · rw [runModel_snd, drain_trace]
    constructor
    · intro hmm
      rcases List.mem_append.mp hmm with hh | hh
      · exact absurd hh (hnr i d).1
      · exact hmem.mp hh
    · intro hp
      exact List.mem_append_right _ (hmem.mpr hp)

theorem claim2_witness :
    Event.stageTemp 0 "out.txt" ∈ (runCore atomicArgv okWorld).2.trace ∧
    (runModel atomicArgv okWorld).2.to_move = [] ∧
    ((runModel atomicArgv okWorld).2.trace.count (Event.renameOk 0 "out.txt")
      + (runModel atomicArgv okWorld).2.trace.count (Event.renameFail 0 "out.txt") = 1) := by
  have h := claim2_pending_drained_once atomicArgv okWorld 0 "out.txt" (by decide)
  exact ⟨h.1, h.2.2.1, h.2.2.2.1⟩

/-- C5 as stated is false: with `--atomic` and `--exit-file`, a rename
failure while committing the staged exit-code artifact is a panic
(`expect`), so the supervisor's own exit status becomes the panic status
101 instead of mirroring the child's exit code 7. -/
theorem claim5_counterexample :
    (runModel exitArgv persistFailWorld).1 =
        Except.error "Failed to move TMP exitcode file!" ∧
    persistFailWorld.childExit = some 7 ∧
    mainExit exitArgv persistFailWorld = 101 ∧
    mainExit exitArgv persistFailWorld ≠ 7 := by
  decide

/-- C5 amended: a rename failure while draining a pending stdout/stderr
artifact is ignored (its result is discarded): it is non-fatal, every
other pending artifact still receives its single rename attempt, and the
supervisor's exit code still mirrors the child's; but a rename failure
committing the staged exit-file artifact is fatal — the run panics and
the supervisor exits with the panic status 101 instead of the child's
code. -/
theorem claim5_amended :
    (∀ (a : Argv) (w : World) (c : Option Nat), (runCore a w).1 = Except.ok c →
      (runModel a w).1 = Except.ok c ∧ mainExit a w = c.getD 0 ∧
      ∀ x ∈ (runCore a w).2.to_move,
        (runModel a w).2.trace.count (Event.renameOk x.1 x.2)
          + (runModel a w).2.trace.count (Event.renameFail x.1 x.2) = 1)
  ∧ (∀ (a : Argv) (w : World) (m : String),
      (runModel a w).1 = Except.error m → mainExit a w = 101) := by
  constructor
  · intro a w c h
    have h2 : (runModel a w).1 = Except.ok c := h
    refine ⟨h2, ?_, ?_⟩
    · unfold mainExit
      rw [h2]
    · intro x hx
      obtain ⟨hmv, hpw, hnr⟩ := runCore_inv a w
      have hx2 : (x.1, x.2) ∈ (runCore a w).2.to_move := by simpa using hx
      obtain ⟨hcount, _⟩ := count_persistEvt w (runCore a w).2.to_move hpw x.1 x.2 hx2
      rw [runModel_snd, drain_trace, List.count_append, List.count_append,
        List.count_eq_zero.mpr (hnr x.1 x.2).1, List.count_eq_zero.mpr (hnr x.1 x.2).2]
      simpa using hcount
  · intro a w m h
    unfold mainExit
    rw [h]

theorem claim5_amended_witness :
    (runModel atomicArgv okWorld).1 = Except.ok (some 7) ∧
    mainExit atomicArgv okWorld = 7 ∧
    mainExit exitArgv persistFailWorld = 101 := by
  have h1 := claim5_amended.1 atomicArgv okWorld (some 7) (by decide)
  have h2 := claim5_amended.2 exitArgv persistFailWorld
    "Failed to move TMP exitcode file!" (by decide)
  exact ⟨h1.1, h1.2.1, h2⟩

end Cenv
